import Mathlib

/-!
Verification development for a CLI-driven browser-automation email agent.

The Python sources are shallowly embedded: stateful code is modelled by
explicit state passing / small oracle parameters (one oracle value per
underlying browser interaction, since the real outcome depends on the live
page), exceptions by `Except String`, and Python dicts holding fixed key
sets by structures.  Wall-clock timestamps and log text emitted to the
plain `logging` logger are abstracted away; the in-memory list that
`ActionLogger` keeps (the only log consumed programmatically) is modelled
faithfully.
-/

namespace AgentSpec

/-- One entry of `ActionLogger.actions` (src/utils/logger.py, `log_action`).
The wall-clock `timestamp` field is abstracted (no claim concerns it). -/
structure ActionRecord where
  action : String
  success : Bool
  details : Option String
deriving Repr, DecidableEq

/-- Result dict returned from `ProviderAdapter.execute_task` /
`send_email` (src/providers/base_provider.py, gmail_adapter.py,
outlook_adapter.py).  Keys that may be absent are `Option`s. -/
structure TaskResult where
  success : Bool
  error : Option String
  message : Option String
  provider : Option String
deriving Repr, DecidableEq

/-- Result dict of an adapter's `send_email`, before `execute_task`
adds the `provider` key. -/
structure SendResult where
  success : Bool
  error : Option String
  message : Option String
deriving Repr, DecidableEq

/-- `ProviderAdapter.execute_task` (src/providers/base_provider.py,
lines 69-107).  `loginOutcome` is the outcome of `await self.login(...)`
(`Except.error m` models `login` raising an exception with message `m`;
both concrete adapters in fact catch all exceptions and return a bool,
which claims use as a hypothesis).  `sendOutcome` likewise models
`await self.send_email(task_info)`.  `get_provider_credentials` cannot
raise for the two concrete adapters (their `get_provider_name` is
"gmail"/"outlook"), so the credentials step is not an error source.
Returns the result dict together with the ordered list of the adapter
methods that were invoked. -/
def execute_task (provider_name : String) (loginOutcome : Except String Bool)
    (sendOutcome : Except String SendResult) : TaskResult × List String :=
  match loginOutcome with
  | .error e =>
      ({ success := false, error := some e, message := none,
         provider := some provider_name }, ["login"])
  | .ok false =>
      ({ success := false, error := some "Login failed", message := none,
         provider := some provider_name }, ["login"])
  | .ok true =>
      match sendOutcome with
      | .error e =>
          ({ success := false, error := some e, message := none,
             provider := some provider_name }, ["login", "send_email"])
      | .ok r =>
          ({ success := r.success, error := r.error, message := r.message,
             provider := some provider_name }, ["login", "send_email"])

/-- The failure dict that `execute_task` returns when `login` yields false. -/
def loginFailedResult (provider_name : String) : TaskResult :=
  { success := false, error := some "Login failed", message := none,
    provider := some provider_name }

/-- C2: for every task, `execute_task` first calls `login`; iff `login`
returns false it returns a failure result with error "Login failed" and
`send_email` is never invoked; `send_email` is attempted only after
`login` has returned true.  The iff is stated under the hypothesis that
`login` returned a boolean (did not raise), which holds for every adapter
in the repository: both `GmailAdapter.login` and `OutlookAdapter.login`
catch all exceptions and return `False`. -/
theorem execute_task_login_gate (provider_name : String)
    (loginOutcome : Except String Bool) (sendOutcome : Except String SendResult) :
    ((execute_task provider_name loginOutcome sendOutcome).2.head? = some "login") ∧
    (loginOutcome = .ok false →
      (execute_task provider_name loginOutcome sendOutcome).1 =
          loginFailedResult provider_name ∧
      "send_email" ∉ (execute_task provider_name loginOutcome sendOutcome).2) ∧
    ("send_email" ∈ (execute_task provider_name loginOutcome sendOutcome).2 ↔
      loginOutcome = .ok true) ∧
    ((∃ b, loginOutcome = .ok b) →
      (((execute_task provider_name loginOutcome sendOutcome).1.success = false ∧
        (execute_task provider_name loginOutcome sendOutcome).1.error =
            some "Login failed" ∧
        "send_email" ∉ (execute_task provider_name loginOutcome sendOutcome).2) ↔
        loginOutcome = .ok false)) := by
  rcases loginOutcome with e | b
  · refine ⟨rfl, by simp, ?_, ?_⟩
    · simp [execute_task]
    · rintro ⟨b, hb⟩; cases hb
  · cases b
    · refine ⟨rfl, ?_, ?_, ?_⟩
      · intro _; exact ⟨rfl, by simp [execute_task]⟩
      · simp [execute_task]
      · intro _
        constructor
        · intro _; rfl
        · intro _; exact ⟨rfl, rfl, by simp [execute_task]⟩
    · rcases sendOutcome with e | r
      · refine ⟨rfl, by simp, ?_, ?_⟩
        · simp [execute_task]
        · intro _
          constructor
          · rintro ⟨-, -, hmem⟩; exact absurd (by simp [execute_task]) hmem
          · intro h; cases h
      · refine ⟨rfl, by simp, ?_, ?_⟩
        · simp [execute_task]
        · intro _
          constructor
          · rintro ⟨-, -, hmem⟩; exact absurd (by simp [execute_task]) hmem
          · intro h; cases h

/-- Witness for C2 at a concrete input: login succeeds, send succeeds. -/
theorem execute_task_login_gate_witness :
    ("send_email" ∈ (execute_task "gmail" (.ok true)
        (.ok { success := true, error := none, message := some "Email sent successfully" })).2 ↔
      (Except.ok true : Except String Bool) = .ok true) :=
  (execute_task_login_gate "gmail" (.ok true)
    (.ok { success := true, error := none, message := some "Email sent successfully" })).2.2.1

/-! ### Session Resource fallback primitives
(src/automation/browser_manager.py, `click_element` lines 107-131 and
`type_text` lines 133-157). -/

/-- Outcome of one "wait for selector then act" attempt on the live page:
`Except.error e` models the attempt raising an exception with text `e`. -/
def excFails : Except String Unit → Bool
  | .error _ => true
  | .ok _ => false

/-- The error text of a failed attempt (`str(e)` in the source). -/
def excMsg : Except String Unit → String
  | .error e => e
  | .ok _ => ""

/-- What a fallback-loop call returns: the boolean result, the candidate
selectors actually attempted (in order), and the `ActionRecord`s appended
to the action log (`log_step` lines do not append records). -/
structure AttemptResult where
  result : Bool
  attempted : List String
  records : List ActionRecord
deriving Repr, DecidableEq

/-- The identical candidate loop shared verbatim by `click_element` and
`type_text`: for the candidate at position `i`, on success append one
success record and stop; on failure, if this was the last candidate
(`i == len(selectors_to_try) - 1`) append one failure record carrying
`str(e)` and return false, otherwise only emit a plain log warning and
continue with the next candidate.  `okPre`/`failPre` are the two message
stems that differ between the two source functions. -/
def fallbackLoop (okPre failPre : String) (oracle : Nat → Except String Unit) :
    Nat → List String → AttemptResult
  | _, [] => ⟨false, [], []⟩
  | i, sel :: rest =>
      match oracle i with
      | .ok _ => ⟨true, [sel], [⟨okPre ++ sel, true, none⟩]⟩
      | .error e =>
          match rest with
          | [] => ⟨false, [sel], [⟨failPre ++ sel, false, some e⟩]⟩
          | r :: rs =>
              let t := fallbackLoop okPre failPre oracle (i + 1) (r :: rs)
              ⟨t.result, sel :: t.attempted, t.records⟩

/-- `BrowserManager.click_element(selector, fallback_selectors=None)`:
`selectors_to_try = [selector] + (fallback_selectors or [])`, then the
candidate loop.  `oracle i` is the outcome of the wait-then-click attempt
on the `i`-th candidate. -/
def click_element (oracle : Nat → Except String Unit) (selector : String)
    (fallback_selectors : Option (List String)) : AttemptResult :=
  fallbackLoop "Clicked element: " "Click element: " oracle 0
    ([selector] ++ fallback_selectors.getD [])

/-- `BrowserManager.type_text(selector, text, fallback_selectors=None)`:
same loop with fill semantics; `text` is passed to `page.fill` and does
not influence the control flow or the log messages. -/
def type_text (oracle : Nat → Except String Unit) (selector : String)
    (text : String) (fallback_selectors : Option (List String)) : AttemptResult :=
  fallbackLoop "Typed text in element: " "Type text in element: " oracle 0
    ([selector] ++ fallback_selectors.getD [])

/-- When every candidate attempt fails, the loop tries them all, returns
false, and appends exactly the one failure record for the last candidate
with its error text. -/
theorem fallbackLoop_all_fail (okPre failPre : String)
    (oracle : Nat → Except String Unit) (l : List String) (i : Nat)
    (hne : l ≠ [])
    (hfail : ∀ j, j < l.length → excFails (oracle (i + j)) = true) :
    fallbackLoop okPre failPre oracle i l =
      ⟨false, l, [⟨failPre ++ l.getLast hne, false,
        some (excMsg (oracle (i + l.length - 1)))⟩]⟩ := by
  induction l generalizing i with
  | nil => exact absurd rfl hne
  | cons sel rest ih =>
    have h0 : excFails (oracle i) = true := by
      have := hfail 0 (by simp)
      simpa using this
    cases ho : oracle i with
    | ok u => rw [ho] at h0; simp [excFails] at h0
    | error e =>
      cases rest with
      | nil =>
        simp [fallbackLoop, ho, List.getLast, excMsg]
      | cons r rs =>
        have hne' : r :: rs ≠ [] := by simp
        have ih' := ih (i := i + 1) hne'
          (fun j hj => by
            have h := hfail (j + 1)
              (by simp only [List.length_cons] at hj ⊢; omega)
            have harith : i + (j + 1) = i + 1 + j := by omega
            rw [harith] at h; exact h)
        have hidx : i + 1 + (r :: rs).length - 1 = i + (sel :: r :: rs).length - 1 := by
          simp only [List.length_cons]; omega
        rw [hidx] at ih'
        simp only [fallbackLoop, ho, ih', List.getLast_cons hne']

/-- When the candidate at position `k` is the first to succeed, the loop
attempts exactly the first `k+1` candidates, returns true, and appends
exactly the one success record for that candidate. -/
theorem fallbackLoop_first_success (okPre failPre : String)
    (oracle : Nat → Except String Unit) (l : List String) (i k : Nat)
    (hk : k < l.length)
    (hok : excFails (oracle (i + k)) = false)
    (hbefore : ∀ j, j < k → excFails (oracle (i + j)) = true) :
    fallbackLoop okPre failPre oracle i l =
      ⟨true, l.take (k + 1), [⟨okPre ++ l.getD k "", true, none⟩]⟩ := by
  induction l generalizing i k with
  | nil => exact absurd hk (by simp)
  | cons sel rest ih =>
    cases k with
    | zero =>
      cases ho : oracle i with
      | error e =>
        rw [show i + 0 = i from rfl, ho] at hok
        simp [excFails] at hok
      | ok u =>
        simp [fallbackLoop, ho]
    | succ k' =>
      have h0 : excFails (oracle i) = true := by
        have := hbefore 0 (Nat.succ_pos k')
        simpa using this
      cases ho : oracle i with
      | ok u => rw [ho] at h0; simp [excFails] at h0
      | error e =>
        have hk' : k' < rest.length := by
          have := hk; simp [List.length_cons] at this; omega
        cases rest with
        | nil => simp at hk'
        | cons r rs =>
          have ih' := ih (i := i + 1) (k := k') hk'
            (by
              have : i + 1 + k' = i + (k' + 1) := by omega
              rw [this]; exact hok)
            (fun j hj => by
              have := hbefore (j + 1) (Nat.succ_lt_succ hj)
              have harith : i + (j + 1) = i + 1 + j := by omega
              rw [harith] at this; exact this)
          simp only [fallbackLoop, ho, ih']
          rfl

/-- C4: `click_element` tries the primary selector and then each fallback
in listed order; it returns true as soon as a candidate succeeds, trying
exactly the first `k+1` candidates when the first success is at position
`k` (so with N candidates of which only the last succeeds it performs
exactly N attempts); it returns false only after the last candidate fails;
in either terminal case exactly one `ActionRecord` — describing the final
attempt, with the failure's error text when all candidates fail — is
appended to the action log. -/
theorem click_element_fallback_contract
    (oracle : Nat → Except String Unit) (selector : String)
    (fallbacks : List String) :
    ((∀ j, j < (selector :: fallbacks).length → excFails (oracle j) = true) →
      click_element oracle selector (some fallbacks) =
        ⟨false, selector :: fallbacks,
          [⟨"Click element: " ++ (selector :: fallbacks).getLast (by simp), false,
            some (excMsg (oracle ((selector :: fallbacks).length - 1)))⟩]⟩) ∧
    (∀ k, k < (selector :: fallbacks).length → excFails (oracle k) = false →
      (∀ j, j < k → excFails (oracle j) = true) →
      click_element oracle selector (some fallbacks) =
        ⟨true, (selector :: fallbacks).take (k + 1),
          [⟨"Clicked element: " ++ (selector :: fallbacks).getD k "", true, none⟩]⟩ ∧
      ((selector :: fallbacks).take (k + 1)).length = k + 1) := by
  constructor
  · intro hfail
    have := fallbackLoop_all_fail "Clicked element: " "Click element: " oracle
      (selector :: fallbacks) 0 (by simp) (fun j hj => by simpa using hfail j hj)
    simpa [click_element] using this
  · intro k hk hok hbefore
    have := fallbackLoop_first_success "Clicked element: " "Click element: " oracle
      (selector :: fallbacks) 0 k hk (by simpa using hok)
      (fun j hj => by simpa using hbefore j hj)
    refine ⟨by simpa [click_element] using this, ?_⟩
    simp only [List.length_cons] at hk
    simp [List.length_take]
    omega

/-- Witness for C4: three candidates, only the last succeeds — three
attempts, result true, and the single record names the last candidate. -/
theorem click_element_fallback_contract_witness :
    click_element (fun i => if i < 2 then .error "timeout" else .ok ()) "a" (some ["b", "c"]) =
      ⟨true, ["a", "b", "c"], [⟨"Clicked element: c", true, none⟩]⟩ := by
  have h := (click_element_fallback_contract
    (fun i => if i < 2 then .error "timeout" else .ok ()) "a" ["b", "c"]).2
    2 (by decide) (by decide) (fun j hj => by interval_cases j <;> decide)
  simpa using h.1

/-- C7: with an absent (`None`) or empty fallback list, `click_element`
and `type_text` are the single-candidate attempt — the two calls return
identical results and the boolean outcome is exactly the success of the
primary selector's attempt. -/
theorem single_candidate_no_fallback
    (oracle : Nat → Except String Unit) (selector text : String) :
    click_element oracle selector none = click_element oracle selector (some []) ∧
    (click_element oracle selector none).result = !excFails (oracle 0) ∧
    type_text oracle selector text none = type_text oracle selector text (some []) ∧
    (type_text oracle selector text none).result = !excFails (oracle 0) := by
  refine ⟨rfl, ?_, rfl, ?_⟩ <;>
    cases ho : oracle 0 <;>
      simp [click_element, type_text, fallbackLoop, ho, excFails]

/-! ### Configuration (src/core/config.py) -/

/-- `Config`: the fields the claims depend on.  Optional credential
fields model `os.getenv` results (`None` or a string); Python truthiness
of such a field is "present and non-empty".  Fields never read by the
embedded operations (`openai_api_key`, `timeout`, `retry_attempts`,
`max_wait_time`, ...) are omitted. -/
structure Config where
  gmail_email : Option String
  gmail_password : Option String
  outlook_email : Option String
  outlook_password : Option String
  screenshot_on_error : Bool
  save_html_on_error : Bool
deriving Repr, DecidableEq

/-- Python truthiness of an `Optional[str]` value. -/
def truthyOpt : Option String → Bool
  | none => false
  | some s => !(s == "")

/-! ### Declarative action plans
(src/automation/browser_manager.py, `execute_action_plan` lines 218-293). -/

/-- One entry of a step's `fallback_actions` list. -/
structure FallbackAction where
  action : String
  target : String
deriving Repr, DecidableEq, Inhabited

/-- One declarative plan step, with the `action.get(key, default)` reads
already applied (absent keys read as `""`/`0`/`[]`). -/
structure PlanStep where
  step : Nat
  action : String
  target : String
  value : String
  description : String
  fallback_actions : List FallbackAction
deriving Repr, DecidableEq, Inhabited

/-- The per-step record appended to `results["actions"]`. -/
structure StepResult where
  step : Nat
  action : String
  target : String
  description : String
  success : Bool
deriving Repr, DecidableEq, Inhabited

/-- The `results` dict built by `execute_action_plan`. -/
structure PlanResults where
  success : Bool
  actions : List StepResult
  errors : List String
  screenshots : List String
deriving Repr, DecidableEq

/-- The action names the `if/elif` dispatch recognizes. -/
def knownAction (a : String) : Prop :=
  a = "navigate" ∨ a = "click" ∨ a = "type" ∨ a = "wait" ∨ a = "verify"

instance (a : String) : Decidable (knownAction a) := by
  unfold knownAction; infer_instance

/-- The dispatch on `action_type` for the step at loop position `i`:
each recognized branch invokes one Session Resource primitive (navigate /
click_element / type_text / wait_for_element), all of which catch their
own exceptions and return a bool — `prim i` is that bool.  `success`
stays `False` when no branch matches. -/
def runStep (prim : Nat → Bool) (i : Nat) (st : PlanStep) : Bool :=
  if st.action = "navigate" then prim i
  else if st.action = "click" then prim i
  else if st.action = "type" then prim i
  else if st.action = "wait" then prim i
  else if st.action = "verify" then prim i
  else false

/-- The error string appended on a step failure. -/
def stepError (st : PlanStep) : String :=
  "Step " ++ toString st.step ++ " failed: " ++ st.description

/-- Paths appended to `results["screenshots"]` when the step at loop
position `i` fails: the screenshot and the HTML snapshot, each taken only
if configured and appended only when the capture returned a path. -/
def failureCaptures (cfg : Config) (shot html : Nat → Option String) (i : Nat) :
    List String :=
  (if cfg.screenshot_on_error then (shot i).toList else []) ++
  (if cfg.save_html_on_error then (html i).toList else [])

/-- The loop body of `execute_action_plan` from position `i` on.  The
source mutates one `results` dict; this recursion appends the same
elements in the same order.  The per-step `try` body cannot raise (every
primitive it calls catches its own exceptions), so the `except` arm of
the loop is dead code for the primitives of this repository. -/
def execute_action_plan_go (cfg : Config) (prim : Nat → Bool)
    (shot html : Nat → Option String) : Nat → List PlanStep → PlanResults
  | _, [] => ⟨true, [], [], []⟩
  | i, st :: rest =>
      let ok := runStep prim i st
      let tail := execute_action_plan_go cfg prim shot html (i + 1) rest
      ⟨ok && tail.success,
       ⟨st.step, st.action, st.target, st.description, ok⟩ :: tail.actions,
       (if ok then [] else [stepError st]) ++ tail.errors,
       (if ok then [] else failureCaptures cfg shot html i) ++ tail.screenshots⟩

/-- `BrowserManager.execute_action_plan(actions)`. -/
def execute_action_plan (cfg : Config) (prim : Nat → Bool)
    (shot html : Nat → Option String) (plan : List PlanStep) : PlanResults :=
  execute_action_plan_go cfg prim shot html 0 plan

/-- `runStep` equals "primitive outcome if the action is recognized,
`False` otherwise". -/
theorem runStep_eq (prim : Nat → Bool) (i : Nat) (st : PlanStep) :
    runStep prim i st = if knownAction st.action then prim i else false := by
  by_cases h1 : st.action = "navigate" <;>
    by_cases h2 : st.action = "click" <;>
      by_cases h3 : st.action = "type" <;>
        by_cases h4 : st.action = "wait" <;>
          by_cases h5 : st.action = "verify" <;>
            simp [runStep, knownAction, h1, h2, h3, h4, h5]

/-- Every plan step yields exactly one entry of `results["actions"]`,
whatever the outcomes: the loop never exits early. -/
theorem execute_action_plan_go_length (cfg : Config) (prim : Nat → Bool)
    (shot html : Nat → Option String) (plan : List PlanStep) (i : Nat) :
    (execute_action_plan_go cfg prim shot html i plan).actions.length =
      plan.length := by
  induction plan generalizing i with
  | nil => rfl
  | cons st rest ih => simp [execute_action_plan_go, ih]

/-- C3: `execute_action_plan` processes every step in order and never
aborts early — every plan yields one action record per step; and for any
5-step plan of recognized actions whose steps are numbered 1..5 in which
only the third primitive fails, all five steps execute (steps 4 and 5
included, successfully), the overall `success` is false, and the errors
list is exactly the one entry referencing step 3. -/
theorem execute_action_plan_no_early_abort (cfg : Config) (prim : Nat → Bool)
    (shot html : Nat → Option String) :
    (∀ plan : List PlanStep,
      (execute_action_plan cfg prim shot html plan).actions.length = plan.length) ∧
    (∀ s1 s2 s3 s4 s5 : PlanStep,
      knownAction s1.action → knownAction s2.action → knownAction s4.action →
      knownAction s5.action →
      prim 0 = true → prim 1 = true → prim 2 = false → prim 3 = true →
      prim 4 = true → s3.step = 3 →
      (execute_action_plan cfg prim shot html [s1, s2, s3, s4, s5]).success = false ∧
      (execute_action_plan cfg prim shot html [s1, s2, s3, s4, s5]).actions.map
          StepResult.success = [true, true, false, true, true] ∧
      (execute_action_plan cfg prim shot html [s1, s2, s3, s4, s5]).errors =
        ["Step 3 failed: " ++ s3.description]) := by
  constructor
  · intro plan
    exact execute_action_plan_go_length cfg prim shot html plan 0
  · intro s1 s2 s3 s4 s5 h1 h2 h4 h5 hp0 hp1 hp2 hp3 hp4 hstep
    have r1 : runStep prim 0 s1 = true := by rw [runStep_eq, if_pos h1, hp0]
    have r2 : runStep prim 1 s2 = true := by rw [runStep_eq, if_pos h2, hp1]
    have r3 : runStep prim 2 s3 = false := by
      rw [runStep_eq]; split <;> simp [hp2]
    have r4 : runStep prim 3 s4 = true := by rw [runStep_eq, if_pos h4, hp3]
    have r5 : runStep prim 4 s5 = true := by rw [runStep_eq, if_pos h5, hp4]
    have hmsg : ("Step " ++ toString (3 : Nat) ++ " failed: ") = "Step 3 failed: " := rfl
    refine ⟨?_, ?_, ?_⟩ <;>
      simp [execute_action_plan, execute_action_plan_go, r1, r2, r3, r4, r5,
        stepError, hstep, hmsg]

/-- Witness for C3 at a concrete 5-step plan where only step 3 fails. -/
theorem execute_action_plan_no_early_abort_witness :
    (execute_action_plan ⟨none, none, none, none, false, false⟩
        (fun i => !(i == 2)) (fun _ => none) (fun _ => none)
        [⟨1, "navigate", "u", "", "go", []⟩, ⟨2, "click", "c", "", "open", []⟩,
         ⟨3, "type", "t", "x", "fill", []⟩, ⟨4, "click", "s", "", "send", []⟩,
         ⟨5, "verify", "v", "", "check", []⟩]).errors =
      ["Step 3 failed: fill"] := by
  have h := (execute_action_plan_no_early_abort ⟨none, none, none, none, false, false⟩
    (fun i => !(i == 2)) (fun _ => none) (fun _ => none)).2
    ⟨1, "navigate", "u", "", "go", []⟩ ⟨2, "click", "c", "", "open", []⟩
    ⟨3, "type", "t", "x", "fill", []⟩ ⟨4, "click", "s", "", "send", []⟩
    ⟨5, "verify", "v", "", "check", []⟩
    (by left; rfl) (by right; left; rfl) (by right; left; rfl)
    (by right; right; right; right; rfl) rfl rfl rfl rfl rfl rfl
  exact h.2.2

/-- An unrecognized action makes `runStep` return `False`. -/
theorem runStep_unknown (prim : Nat → Bool) (i : Nat) (st : PlanStep)
    (h : ¬ knownAction st.action) : runStep prim i st = false := by
  rw [runStep_eq, if_neg h]

/-- Loop-level version of C10 for an arbitrary start position. -/
theorem execute_action_plan_go_unknown (cfg : Config) (prim : Nat → Bool)
    (shot html : Nat → Option String) (plan : List PlanStep) :
    ∀ k i, i < plan.length → ¬ knownAction ((plan.getD i default).action) →
      (((execute_action_plan_go cfg prim shot html k plan).actions.getD i
          default).success = false) ∧
      (execute_action_plan_go cfg prim shot html k plan).success = false ∧
      stepError (plan.getD i default) ∈
        (execute_action_plan_go cfg prim shot html k plan).errors := by
  induction plan with
  | nil => intro k i hi; simp at hi
  | cons st rest ih =>
    intro k i hi hunk
    cases i with
    | zero =>
      have hz : runStep prim k st = false := runStep_unknown prim k st (by simpa using hunk)
      refine ⟨?_, ?_, ?_⟩ <;> simp [execute_action_plan_go, hz]
    | succ i' =>
      have hi' : i' < rest.length := by simpa using hi
      have ih' := ih (k + 1) i' hi' (by simpa using hunk)
      refine ⟨?_, ?_, ?_⟩
      · simpa [execute_action_plan_go] using ih'.1
      · simp [execute_action_plan_go, ih'.2.1]
      · simp [execute_action_plan_go]
        right
        simpa using ih'.2.2

/-- C10: a plan step whose `action` is none of navigate/click/type/wait/
verify is recorded as a failed step: its action record has `success`
false, the plan's overall `success` becomes false, and an error entry for
that step is appended — it is not silently skipped as successful. -/
theorem unknown_action_recorded_failed (cfg : Config) (prim : Nat → Bool)
    (shot html : Nat → Option String) (plan : List PlanStep) (i : Nat)
    (hi : i < plan.length)
    (hunk : ¬ knownAction ((plan.getD i default).action)) :
    (((execute_action_plan cfg prim shot html plan).actions.getD i
        default).success = false) ∧
    (execute_action_plan cfg prim shot html plan).success = false ∧
    stepError (plan.getD i default) ∈
      (execute_action_plan cfg prim shot html plan).errors :=
  execute_action_plan_go_unknown cfg prim shot html plan 0 i hi hunk

/-- Witness for C10: a one-step plan with action "hover" (unrecognized)
is recorded as failed even though the primitive oracle would succeed. -/
theorem unknown_action_recorded_failed_witness :
    (execute_action_plan ⟨none, none, none, none, false, false⟩ (fun _ => true)
        (fun _ => none) (fun _ => none)
        [⟨1, "hover", "x", "", "hover it", []⟩]).success = false :=
  (unknown_action_recorded_failed ⟨none, none, none, none, false, false⟩
    (fun _ => true) (fun _ => none) (fun _ => none)
    [⟨1, "hover", "x", "", "hover it", []⟩] 0 (by decide)
    (by intro h; rcases h with h | h | h | h | h <;> simp_all)).2.1

/-! ### Provider selection and the Orchestrator
(src/core/config.py lines 58-87, src/core/agent.py lines 35-147, 208-216). -/

/-- `Config.get_available_providers`: "gmail" first when its email and
password are both truthy, then "outlook" likewise. -/
def get_available_providers (c : Config) : List String :=
  (if (truthyOpt c.gmail_email && truthyOpt c.gmail_password) = true
    then ["gmail"] else []) ++
  (if (truthyOpt c.outlook_email && truthyOpt c.outlook_password) = true
    then ["outlook"] else [])

/-- `Config.is_provider_configured`. -/
def is_provider_configured (c : Config) (p : String) : Bool :=
  (get_available_providers c).contains p

/-- `GenericUIAgent._select_provider` (src/core/agent.py lines 105-147),
returning the selected provider (`None` on failure) together with the
number of `log_warning` calls made.  The `"auto"` branch prefers
"gmail" when available, else the first configured provider; the
`preference in ["gmail", "outlook"]` branch falls back — after one
warning — to the first configured provider when the preferred one is not
configured; any other preference hits the final `else`, which logs an
error (not a warning) and returns `None`. -/
def select_provider (c : Config) (preference : String) : Option String × Nat :=
  if preference = "auto" then
    match get_available_providers c with
    | [] => (none, 0)
    | p :: _ =>
        (some (if (get_available_providers c).contains "gmail" then "gmail" else p), 0)
  else if preference = "gmail" ∨ preference = "outlook" then
    if is_provider_configured c preference then (some preference, 0)
    else
      match get_available_providers c with
      | [] => (none, 1)
      | p :: _ => (some p, 1)
  else (none, 0)

/-- `TaskRecord`: the structured task dict produced by
`LLMService.interpret_instruction` (src/services/llm_service.py). -/
structure TaskRecord where
  task_type : String
  action : String
  recipients : List String
  subject : String
  content : String
  attachments : List String
  provider_preference : String
  urgency : String
  additional_context : String
deriving Repr, DecidableEq, Inhabited

/-- Browser-lifetime bookkeeping of one `GenericUIAgent.execute` run:
whether `self.browser_manager` was assigned (non-`None` when the
`finally` block runs) and how many times `BrowserManager.stop` was
invoked over the whole run. -/
structure RunTrace where
  browserCreated : Bool
  stopCalls : Nat
deriving Repr, DecidableEq

/-- The caller-visible outcome of `GenericUIAgent.execute` (the fields
claims inspect; `duration`, `actions` and `warnings` carry no claim). -/
structure ExecuteResult where
  success : Bool
  error : Option String
  task_type : Option String
deriving Repr, DecidableEq

/-- `GenericUIAgent.execute(instruction)` (src/core/agent.py lines
35-89).  Oracles: `interpretOutcome` is `_interpret_instruction`'s result
(`none` when interpretation failed — that helper catches its own
exceptions); `constructOutcome` models `BrowserManager(self.config)`
(which can raise from `mkdir` before `self.browser_manager` is assigned);
`startOutcome` models `await self.browser_manager.start()` (re-raised by
`_initialize_browser` after the manager was already assigned);
`taskOutcome` is step 4: `Except.ok r` when `_execute_task` returned the
dict `r` (it catches adapter exceptions itself, so this covers success
and provider failure), `Except.error e` when an exception nonetheless
propagates out of task execution — `execute`'s own `except` arm.  The
`finally` block runs `_cleanup_browser`, which calls `stop` exactly when
`self.browser_manager` is not `None` and then clears it. -/
def agent_execute (c : Config) (interpretOutcome : Option TaskRecord)
    (constructOutcome startOutcome : Except String Unit)
    (taskOutcome : Except String TaskResult) : ExecuteResult × RunTrace :=
  match interpretOutcome with
  | none =>
      ({ success := false, error := some "Failed to interpret instruction",
         task_type := none }, ⟨false, 0⟩)
  | some task =>
      match (select_provider c task.provider_preference).1 with
      | none =>
          ({ success := false, error := some "No suitable provider available",
             task_type := none }, ⟨false, 0⟩)
      | some _ =>
          match constructOutcome with
          | .error e =>
              ({ success := false, error := some e, task_type := none },
               ⟨false, 0⟩)
          | .ok _ =>
              match startOutcome with
              | .error e =>
                  ({ success := false, error := some e, task_type := none },
                   ⟨true, 1⟩)
              | .ok _ =>
                  match taskOutcome with
                  | .error e =>
                      ({ success := false, error := some e, task_type := none },
                       ⟨true, 1⟩)
                  | .ok r =>
                      ({ success := r.success, error := r.error,
                         task_type := some task.task_type }, ⟨true, 1⟩)

/-- C1: over every `GenericUIAgent.execute` run, `stop` is called exactly
once if a `BrowserManager` was created and never otherwise (no started
session is leaked, and `stop` is not called twice); in particular every
run that reaches task execution — which covers runs ending in success, in
a provider failure result, and in an exception thrown during task
execution — invokes `stop` exactly once via the guaranteed `finally`
path. -/
theorem agent_execute_cleanup_invariant (c : Config)
    (interpretOutcome : Option TaskRecord)
    (constructOutcome startOutcome : Except String Unit)
    (taskOutcome : Except String TaskResult) :
    ((agent_execute c interpretOutcome constructOutcome startOutcome
        taskOutcome).2.stopCalls =
      if (agent_execute c interpretOutcome constructOutcome startOutcome
          taskOutcome).2.browserCreated then 1 else 0) ∧
    (∀ t, interpretOutcome = some t →
      (select_provider c t.provider_preference).1.isSome = true →
      constructOutcome = .ok () → startOutcome = .ok () →
      (agent_execute c interpretOutcome constructOutcome startOutcome
          taskOutcome).2.stopCalls = 1) := by
  constructor
  · rcases interpretOutcome with - | task
    · rfl
    · rcases hsel : (select_provider c task.provider_preference).1 with - | p
      · simp [agent_execute, hsel]
      · rcases constructOutcome with e | u
        · simp [agent_execute, hsel]
        · rcases startOutcome with e | u
          · simp [agent_execute, hsel]
          · rcases taskOutcome with e | r <;> simp [agent_execute, hsel]
  · rintro t rfl hsel rfl rfl
    rcases h : (select_provider c t.provider_preference).1 with - | p
    · rw [h] at hsel; simp at hsel
    · rcases taskOutcome with e | r <;> simp [agent_execute, h]

/-- Witness for C1: a concrete run whose provider adapter reports failure
(a "provider failure" run) still stops the browser exactly once. -/
theorem agent_execute_cleanup_invariant_witness :
    (agent_execute ⟨some "a@g", some "pw", none, none, true, true⟩
        (some ⟨"email", "send", ["demo@example.com"], "s", "c", [], "auto", "medium", ""⟩)
        (.ok ()) (.ok ())
        (.ok { success := false, error := some "Login failed",
               message := none, provider := some "gmail" })).2.stopCalls = 1 :=
  (agent_execute_cleanup_invariant ⟨some "a@g", some "pw", none, none, true, true⟩
      (some ⟨"email", "send", ["demo@example.com"], "s", "c", [], "auto", "medium", ""⟩)
      (.ok ()) (.ok ())
      (.ok { success := false, error := some "Login failed",
             message := none, provider := some "gmail" })).2
    ⟨"email", "send", ["demo@example.com"], "s", "c", [], "auto", "medium", ""⟩
    rfl (by decide) rfl rfl

/-- A configuration with only Gmail credentials present. -/
def cfgGmailOnly : Config :=
  ⟨some "user@gmail.com", some "pw", none, none, true, true⟩

/-- C5 counterexample: with Gmail configured and the task naming the
specific (unconfigured) provider "yahoo", `_select_provider` does NOT
fall back to the first available provider and logs no warning — it takes
the unknown-preference `else` branch, returns `None` with zero warnings,
and the run fails with "No suitable provider available" even though a
provider is configured.  This refutes the claim that naming any
unconfigured specific provider falls back with exactly one warning. -/
theorem select_provider_unknown_preference_counterexample :
    get_available_providers cfgGmailOnly = ["gmail"] ∧
    select_provider cfgGmailOnly "yahoo" = (none, 0) ∧
    (agent_execute cfgGmailOnly
        (some ⟨"email", "send", ["d@example.com"], "s", "c", [], "yahoo", "medium", ""⟩)
        (.ok ()) (.ok ())
        (.ok { success := true, error := none, message := none,
               provider := some "gmail" })).1.error =
      some "No suitable provider available" := by
  refine ⟨by decide, by decide, ?_⟩
  have hsel : (select_provider cfgGmailOnly "yahoo").1 = none := by decide
  simp [agent_execute, hsel]

/-- C5 (amended): with preference "auto", "gmail" is selected whenever it
is configured (in particular when both providers are) and otherwise the
first configured provider is; when the preference names a KNOWN provider
("gmail"/"outlook") that is not configured, selection falls back to the
first configured provider with exactly one warning; and whenever no
provider is configured at all — and also when the preference is neither
"auto" nor a known provider — the run fails with error
"No suitable provider available". -/
theorem select_provider_policy (c : Config) :
    ((truthyOpt c.gmail_email && truthyOpt c.gmail_password) = true →
      select_provider c "auto" = (some "gmail", 0)) ∧
    ((truthyOpt c.gmail_email && truthyOpt c.gmail_password) = false →
      ∀ p rest, get_available_providers c = p :: rest →
        select_provider c "auto" = (some p, 0)) ∧
    (∀ pref, (pref = "gmail" ∨ pref = "outlook") →
      is_provider_configured c pref = false →
      ∀ p rest, get_available_providers c = p :: rest →
        select_provider c pref = (some p, 1)) ∧
    (get_available_providers c = [] →
      ∀ (t : TaskRecord) (co so : Except String Unit)
        (to' : Except String TaskResult),
        (agent_execute c (some t) co so to').1.success = false ∧
        (agent_execute c (some t) co so to').1.error =
          some "No suitable provider available") := by
  refine ⟨?_, ?_, ?_, ?_⟩
  · intro hg
    by_cases ho : (truthyOpt c.outlook_email && truthyOpt c.outlook_password) = true <;>
      simp [select_provider, get_available_providers, hg, ho]
  · intro hg p rest h
    by_cases ho : (truthyOpt c.outlook_email && truthyOpt c.outlook_password) = true <;>
      simp [get_available_providers, hg, ho] at h
    obtain ⟨rfl, rfl⟩ := h
    simp [select_provider, get_available_providers, hg, ho]
  · rintro pref (rfl | rfl) hconf p rest h <;>
      simp [select_provider, hconf, h]
  · intro hav t co so to'
    have hsel : ∀ pref, (select_provider c pref).1 = none := by
      intro pref
      unfold select_provider
      by_cases ha : pref = "auto"
      · simp [ha, hav]
      · by_cases hk : pref = "gmail" ∨ pref = "outlook"
        · have hc : is_provider_configured c pref = false := by
            simp [is_provider_configured, hav]
          simp [ha, hk, hc, hav]
        · simp [ha, hk]
    constructor <;> simp [agent_execute, hsel t.provider_preference]

/-- Witness for C5 (amended): preference "outlook" with only Gmail
configured selects "gmail" with exactly one warning. -/
theorem select_provider_policy_witness :
    select_provider cfgGmailOnly "outlook" = (some "gmail", 1) :=
  (select_provider_policy cfgGmailOnly).2.2.1 "outlook" (Or.inr rfl)
    (by decide) "gmail" [] (by decide)

/-! ### ActionLogger aliasing (src/utils/logger.py lines 92-147). -/

/-- A heap of Python list objects holding `ActionRecord`s; an address is
an index into `lists`.  `ActionLogger.self.actions` is one such object;
`get_actions` returns `self.actions.copy()`, a freshly allocated object. -/
structure ListStore where
  lists : List (List ActionRecord)
deriving Repr

/-- Dereference the list object at address `a`. -/
def ListStore.read (s : ListStore) (a : Nat) : List ActionRecord :=
  s.lists.getD a []

/-- Allocate a new list object with contents `v`; returns its address. -/
def ListStore.alloc (s : ListStore) (v : List ActionRecord) : Nat × ListStore :=
  (s.lists.length, ⟨s.lists ++ [v]⟩)

/-- In-place `list.append` on the object at address `a`. -/
def ListStore.appendAt (s : ListStore) (a : Nat) (x : ActionRecord) : ListStore :=
  ⟨s.lists.set a (s.read a ++ [x])⟩

/-- `ActionLogger.get_actions`: `return self.actions.copy()` — a new
list object whose contents equal the internal one's. -/
def get_actions (lg : Nat) (s : ListStore) : Nat × ListStore :=
  s.alloc (s.read lg)

/-- `ActionLogger.log_action`: appends the new record to `self.actions`
in place (the message formatting sent to the plain logger does not touch
the store). -/
def log_action (lg : Nat) (s : ListStore) (r : ActionRecord) : ListStore :=
  s.appendAt lg r

/-- `getD` after `set` at a different index is unchanged. -/
theorem getD_set_ne {α : Type} (l : List α) (i j : Nat) (x d : α) (h : i ≠ j) :
    (l.set i x).getD j d = l.getD j d := by
  rcases Nat.lt_or_ge j l.length with hj | hj
  · rw [List.getD_eq_getElem _ _ (by simpa using hj), List.getD_eq_getElem _ _ hj]
    exact List.getElem_set_ne h _
  · rw [List.getD_eq_default _ _ (by simpa using hj), List.getD_eq_default _ _ hj]

/-- `getD` after `set` at the same, in-bounds index is the new value. -/
theorem getD_set_self {α : Type} (l : List α) (i : Nat) (x d : α)
    (h : i < l.length) : (l.set i x).getD i d = x := by
  rw [List.getD_eq_getElem _ _ (by simpa using h)]
  exact List.getElem_set_self _

/-- C9: `get_actions` returns a copy of the internal action list.  For a
logger whose list lives at a valid address: the returned object has the
same contents; appending to (mutating) the returned object never changes
the logger's internal record; and a `log_action` performed after the call
extends the internal record but does not appear in the previously
returned list. -/
theorem get_actions_returns_copy (s : ListStore) (lg : Nat)
    (h : lg < s.lists.length) :
    ((get_actions lg s).2.read (get_actions lg s).1 = s.read lg) ∧
    (∀ x, (((get_actions lg s).2.appendAt (get_actions lg s).1 x).read lg =
        s.read lg)) ∧
    (∀ r, (log_action lg (get_actions lg s).2 r).read (get_actions lg s).1 =
        (get_actions lg s).2.read (get_actions lg s).1 ∧
      (log_action lg (get_actions lg s).2 r).read lg = s.read lg ++ [r]) := by
  have hne : s.lists.length ≠ lg := Nat.ne_of_gt h
  refine ⟨?_, ?_, ?_⟩
  · show (s.lists ++ [s.read lg]).getD s.lists.length [] = s.read lg
    rw [List.getD_append_right _ _ _ _ (Nat.le_refl _)]
    simp
  · intro x
    show ((s.lists ++ [s.read lg]).set s.lists.length _).getD lg [] = s.read lg
    rw [getD_set_ne _ _ _ _ _ hne]
    exact List.getD_append _ _ _ _ h
  · intro r
    constructor
    · show ((s.lists ++ [s.read lg]).set lg _).getD s.lists.length [] =
        (s.lists ++ [s.read lg]).getD s.lists.length []
      exact getD_set_ne _ _ _ _ _ (Ne.symm hne)
    · show ((s.lists ++ [s.read lg]).set lg
          (((⟨s.lists ++ [s.read lg]⟩ : ListStore).read lg) ++ [r])).getD lg [] =
        s.read lg ++ [r]
      have hcopy : (⟨s.lists ++ [s.read lg]⟩ : ListStore).read lg = s.read lg :=
        List.getD_append _ _ _ _ h
      rw [hcopy, getD_set_self _ _ _ _ (by simp; omega)]

/-- Witness for C9 on a one-list store and a concrete appended record. -/
theorem get_actions_returns_copy_witness :
    ((get_actions 0 ⟨[[⟨"a", true, none⟩]]⟩).2.appendAt
        (get_actions 0 ⟨[[⟨"a", true, none⟩]]⟩).1 ⟨"b", false, some "e"⟩).read 0 =
      (⟨[[⟨"a", true, none⟩]]⟩ : ListStore).read 0 :=
  (get_actions_returns_copy ⟨[[⟨"a", true, none⟩]]⟩ 0 (by decide)).2.1
    ⟨"b", false, some "e"⟩

/-! ### Task Interpreter (src/services/llm_service.py).

The email regex `\b[A-Za-z0-9._%+-]+@[A-Za-z0-9.-]+\.[A-Z|a-z]{2,}\b`
used by `_fallback_parsing` and `_validate_task_info` is embedded as a
specialized matcher with Python's leftmost scan and greedy backtracking
(note the literal `|` inside the last character class).  Word characters
for `\b` are modelled by the ASCII part of Python's Unicode word set. -/

/-- ASCII `[A-Za-z]`. -/
def isAsciiLetter (c : Char) : Bool :=
  ('A' ≤ c && c ≤ 'Z') || ('a' ≤ c && c ≤ 'z')

/-- ASCII `[0-9]`. -/
def isAsciiDigit (c : Char) : Bool := '0' ≤ c && c ≤ '9'

/-- A word character, as used by `\b`. -/
def isWordChar (c : Char) : Bool := isAsciiLetter c || isAsciiDigit c || c = '_'

/-- The local-part class `[A-Za-z0-9._%+-]`. -/
def isLocalChar (c : Char) : Bool :=
  isAsciiLetter c || isAsciiDigit c || c = '.' || c = '_' || c = '%' ||
    c = '+' || c = '-'

/-- The domain class `[A-Za-z0-9.-]`. -/
def isDomainChar (c : Char) : Bool :=
  isAsciiLetter c || isAsciiDigit c || c = '.' || c = '-'

/-- The top-level-domain class `[A-Z|a-z]` (with the literal `|`). -/
def isTldChar (c : Char) : Bool := isAsciiLetter c || c = '|'

/-- `\b`: true when exactly one side of the position is a word char. -/
def isBoundary (prev next : Option Char) : Bool :=
  (match prev with | none => false | some c => isWordChar c) !=
    (match next with | none => false | some c => isWordChar c)

/-- `[A-Z|a-z]{2,}\b` at the front of `ts ++ rest`, where `ts` is the
maximal run of tld chars: greedy count-down from `n = ts.length`,
backtracking on the trailing `\b`. -/
def tldGo (ts rest : List Char) : Nat → Option (List Char × List Char)
  | 0 => none
  | Nat.succ n =>
      if n + 1 < 2 then none
      else
        let taken := ts.take (n + 1)
        let remaining := ts.drop (n + 1) ++ rest
        if isBoundary taken.getLast? remaining.head? then some (taken, remaining)
        else tldGo ts rest n

/-- `[A-Za-z0-9.-]+\.[A-Z|a-z]{2,}\b` at the front of `ds ++ rest`,
where `ds` is the maximal run of domain chars: greedy count-down on how
many domain chars `+` consumes, requiring a literal `.` next, then the
tld part; on its failure backtrack to a shorter consumption. -/
def domGo (ds rest : List Char) : Nat → Option (List Char × List Char)
  | 0 => none
  | Nat.succ k =>
      let consumed := ds.take (k + 1)
      let after := ds.drop (k + 1) ++ rest
      match after with
      | '.' :: afterDot =>
          match tldGo (afterDot.takeWhile isTldChar)
              (afterDot.dropWhile isTldChar)
              (afterDot.takeWhile isTldChar).length with
          | some (tld, rem) => some (consumed ++ '.' :: tld, rem)
          | none => domGo ds rest k
      | _ => domGo ds rest k

/-- The whole pattern anchored at the current position (`prev` is the
character just before it, for the leading `\b`): local part (greedy,
deterministic since `@` is not a local char), `@`, then domain-dot-tld. -/
def matchEmailAt (prev : Option Char) (l : List Char) :
    Option (List Char × List Char) :=
  if isBoundary prev l.head? then
    let locals := l.takeWhile isLocalChar
    match l.dropWhile isLocalChar with
    | '@' :: r2 =>
        if locals.isEmpty then none
        else
          match domGo (r2.takeWhile isDomainChar) (r2.dropWhile isDomainChar)
              (r2.takeWhile isDomainChar).length with
          | some (dom, rest) => some (locals ++ '@' :: dom, rest)
          | none => none
    | _ => none
  else none

/-- `re.findall` scan: try a match at every position left to right; on a
match, emit it and resume after it (the pattern never matches empty);
otherwise advance one character.  `fuel` bounds the number of scan steps
(each step strictly shrinks the list). -/
def scanEmails : Option Char → List Char → Nat → List String
  | _, _, 0 => []
  | prev, l, Nat.succ fuel =>
      match l with
      | [] => []
      | c :: rest =>
          match matchEmailAt prev (c :: rest) with
          | some (m, rem) => String.mk m :: scanEmails m.getLast? rem fuel
          | none => scanEmails (some c) rest fuel

/-- `re.findall(emailPattern, s)`. -/
def findEmails (s : String) : List String :=
  scanEmails none s.data (s.data.length + 1)

/-- Tokenizer for Python `str.split()` with no argument: `acc` holds the
current word's characters in reverse; whitespace runs separate words and
produce no empty pieces. -/
def wordsGo : List Char → List Char → List (List Char)
  | acc, [] => if acc.isEmpty then [] else [acc.reverse]
  | acc, c :: rest =>
      if c.isWhitespace then
        if acc.isEmpty then wordsGo [] rest
        else acc.reverse :: wordsGo [] rest
      else wordsGo (c :: acc) rest

/-- Python `content.split()`: maximal non-whitespace runs, in order.
(Lean's `Char.isWhitespace` models Python's whitespace set on the ASCII
characters the sources produce.) -/
def pySplit (s : String) : List String :=
  (wordsGo [] s.data).map String.mk

/-- `" ".join(words)`. -/
def joinWords : List String → String
  | [] => ""
  | [w] => w
  | w :: ws => w ++ " " ++ joinWords ws

/-- `LLMService._generate_subject(content)` (lines 311-318): join the
first 5 whitespace-separated words; if longer than 50 characters,
truncate to 47 and add `"..."`. -/
def generate_subject (content : String) : String :=
  let subject := joinWords ((pySplit content).take 5)
  if subject.length > 50 then String.mk (subject.data.take 47) ++ "..."
  else subject

/-- The parsed `recipients` JSON value: a string (from which emails get
re-extracted) or already a list. -/
inductive RawRecipients where
  | str (s : String)
  | list (l : List String)
deriving Repr, DecidableEq

/-- A parsed task dict as `json.loads` may deliver it: every key
optional (defaults get filled in by `_validate_task_info`). -/
structure RawTask where
  task_type : Option String
  action : Option String
  recipients : Option RawRecipients
  subject : Option String
  content : Option String
  attachments : Option (List String)
  provider_preference : Option String
  urgency : Option String
  additional_context : Option String
deriving Repr, DecidableEq

/-- `LLMService._validate_task_info` (lines 279-309): fill every absent
key with its default, re-extract emails when `recipients` is a string,
and back-fill the subject from the content when the subject is falsy and
the content truthy. -/
def validate_task_info (t : RawTask) : TaskRecord :=
  let content := t.content.getD ""
  let subject := t.subject.getD ""
  { task_type := t.task_type.getD "email"
    action := t.action.getD "send"
    recipients :=
      match t.recipients.getD (.list []) with
      | .str s => findEmails s
      | .list l => l
    subject :=
      if subject = "" ∧ content ≠ "" then generate_subject content else subject
    content := content
    attachments := t.attachments.getD []
    provider_preference := t.provider_preference.getD "auto"
    urgency := t.urgency.getD "medium"
    additional_context := t.additional_context.getD "" }

/-- `LLMService._fallback_parsing(instruction)` (lines 320-337). -/
def fallback_parsing (instruction : String) : TaskRecord :=
  { task_type := "email"
    action := "send"
    recipients := findEmails instruction
    subject := "Message from automation system"
    content := instruction
    attachments := []
    provider_preference := "auto"
    urgency := "medium"
    additional_context := "" }

/-- How the body of `interpret_instruction`'s `try` block can go:
`_call_llm` raising, `json.loads` raising `JSONDecodeError`, the parsed
value not being a task-shaped dict (so `_validate_task_info` raises —
e.g. item assignment on a JSON array), or a parsed task dict. -/
inductive InterpretOutcome where
  | llmRaises (msg : String)
  | parseFails (msg : String)
  | parsedBad (msg : String)
  | parsed (t : RawTask)
deriving Repr

/-- The `try` body of `LLMService.interpret_instruction` (lines 65-74):
an `Except.error` is an exception propagating to the handlers. -/
def interpret_try (o : InterpretOutcome) : Except String TaskRecord :=
  match o with
  | .llmRaises m => .error m
  | .parseFails m => .error m
  | .parsedBad m => .error m
  | .parsed t => .ok (validate_task_info t)

/-- `LLMService.interpret_instruction(instruction)` (lines 26-81): the
`except json.JSONDecodeError` and `except Exception` arms together catch
every exception from the body and return `_fallback_parsing(instruction)`
— the call itself never raises. -/
def interpret_instruction (o : InterpretOutcome) (instruction : String) :
    Except String TaskRecord :=
  match interpret_try o with
  | .ok r => .ok r
  | .error _ => .ok (fallback_parsing instruction)

/-- C6: `interpret_instruction` never raises — for every oracle outcome
it returns `.ok` — and on every parsing/model failure it returns the
fallback record, whose recipients are exactly the email-regex matches of
the raw instruction in scan order and whose content is the entire
instruction text. -/
theorem interpret_instruction_never_raises (o : InterpretOutcome)
    (instruction : String) :
    (∃ r, interpret_instruction o instruction = .ok r) ∧
    (∀ m, o = .llmRaises m ∨ o = .parseFails m ∨ o = .parsedBad m →
      interpret_instruction o instruction = .ok (fallback_parsing instruction) ∧
      (fallback_parsing instruction).recipients = findEmails instruction ∧
      (fallback_parsing instruction).content = instruction) := by
  constructor
  · cases o <;> exact ⟨_, rfl⟩
  · rintro m (rfl | rfl | rfl) <;> exact ⟨rfl, rfl, rfl⟩

/-- Witness for C6: a failing LLM call on a concrete instruction yields
the fallback record with exactly the email-shaped substring extracted. -/
theorem interpret_instruction_never_raises_witness :
    interpret_instruction (.llmRaises "boom")
        "send email to alice@example.com saying hi" =
      .ok (fallback_parsing "send email to alice@example.com saying hi") ∧
    findEmails "send email to alice@example.com saying hi" =
      ["alice@example.com"] := by
  refine ⟨(And.right (interpret_instruction_never_raises (.llmRaises "boom")
    "send email to alice@example.com saying hi") "boom" (Or.inl rfl)).1, ?_⟩
  decide

/-- The join of a nonempty word list is at least as long as its first
word. -/
theorem joinWords_length_ge (w : String) (ws : List String) :
    w.length ≤ (joinWords (w :: ws)).length := by
  cases ws with
  | nil => simp [joinWords]
  | cons v vs =>
    have h1 : (" " : String).length = 1 := rfl
    simp [joinWords, String.length_append]
    omega

/-- A nonempty string has positive length. -/
theorem length_pos_of_ne_empty (w : String) (hw : w ≠ "") : 0 < w.length := by
  have hd : w.data ≠ [] := by
    intro h0
    apply hw
    cases w
    simp at h0
    simp [h0]
  show 0 < w.data.length
  exact List.length_pos.mpr hd

/-- Every word the `split()` tokenizer emits is non-empty. -/
theorem wordsGo_ne_nil (l : List Char) :
    ∀ acc, ∀ w ∈ wordsGo acc l, w ≠ [] := by
  induction l with
  | nil =>
    intro acc w hw
    by_cases ha : acc.isEmpty
    · simp [wordsGo, ha] at hw
    · simp [wordsGo, ha] at hw
      subst hw
      simp only [List.isEmpty_iff] at ha
      simpa using ha
  | cons c rest ih =>
    intro acc w hw
    by_cases hws : c.isWhitespace
    · by_cases ha : acc.isEmpty
      · simp [wordsGo, hws, ha] at hw
        exact ih [] w hw
      · simp [wordsGo, hws, ha] at hw
        rcases hw with rfl | hw
        · simp only [List.isEmpty_iff] at ha
          simpa using ha
        · exact ih [] w hw
    · simp only [wordsGo, if_neg hws] at hw
      exact ih (c :: acc) w hw

/-- When the content has at least one whitespace-separated word, the
generated subject is non-empty. -/
theorem generate_subject_ne_empty (c : String) (h : pySplit c ≠ []) :
    generate_subject c ≠ "" := by
  obtain ⟨w, ws, hws⟩ := List.exists_cons_of_ne_nil h
  have hw : w ≠ "" := by
    have hmem : w ∈ pySplit c := by rw [hws]; exact List.mem_cons_self _ _
    obtain ⟨d, hd, rfl⟩ := List.mem_map.mp hmem
    have hdne := wordsGo_ne_nil c.data [] d hd
    intro h0
    apply hdne
    simpa using congrArg String.data h0
  have hwlen : 0 < w.length := length_pos_of_ne_empty w hw
  unfold generate_subject
  rw [hws, List.take_succ_cons]
  have hsl : 0 < (joinWords (w :: ws.take 4)).length :=
    Nat.lt_of_lt_of_le hwlen (joinWords_length_ge _ _)
  by_cases hlong : (joinWords (w :: ws.take 4)).length > 50
  · rw [if_pos hlong]
    intro hcontra
    have hlen := congrArg String.length hcontra
    rw [String.length_append] at hlen
    have h3 : ("..." : String).length = 3 := rfl
    have h0 : ("" : String).length = 0 := rfl
    omega
  · rw [if_neg hlong]
    intro hcontra
    rw [hcontra] at hsl
    simp at hsl

/-- C8 counterexample: a parsed task with empty subject and the
non-empty, purely-whitespace content `" "` leaves the subject empty —
`content.split()` has no words, so `_generate_subject` joins an empty
word list.  The claim "the returned record's subject is never empty when
content is non-empty" is therefore false on the code. -/
theorem subject_backfill_counterexample :
    (validate_task_info ⟨some "email", some "send", some (.list ["a@b.cd"]),
        some "", some " ", some [], some "auto", some "medium",
        some ""⟩).subject = "" ∧
    (validate_task_info ⟨some "email", some "send", some (.list ["a@b.cd"]),
        some "", some " ", some [], some "auto", some "medium",
        some ""⟩).content = " " ∧
    (" " : String) ≠ "" := by
  refine ⟨?_, rfl, by decide⟩
  decide

/-- C8 (amended): for every task record the interpreter validates whose
subject is absent/empty, if the content contains at least one
non-whitespace word then the subject is back-filled with the default
derived from the first (up to five) words of the content, and the
returned subject is non-empty.  (When the content is non-empty but all
whitespace, the back-fill still runs and produces the empty subject —
the counterexample above.)  The regex-fallback path always sets the
fixed non-empty subject. -/
theorem subject_backfill_amended (t : RawTask)
    (hsub : t.subject.getD "" = "")
    (hword : pySplit (t.content.getD "") ≠ []) :
    (validate_task_info t).subject = generate_subject (t.content.getD "") ∧
    (validate_task_info t).subject ≠ "" ∧
    (∀ s, (fallback_parsing s).subject = "Message from automation system") := by
  have hcne : t.content.getD "" ≠ "" := by
    intro h0
    rw [h0] at hword
    exact hword (by decide)
  have hcond : (t.subject.getD "" = "" ∧ t.content.getD "" ≠ "") := ⟨hsub, hcne⟩
  have hfield : (validate_task_info t).subject = generate_subject (t.content.getD "") := by
    unfold validate_task_info
    simp only []
    rw [if_pos hcond]
  refine ⟨hfield, ?_, fun _ => rfl⟩
  rw [hfield]
  exact generate_subject_ne_empty _ hword

/-- Witness for C8 (amended) at a concrete record: absent subject,
content "Hello world" — the subject becomes "Hello world". -/
theorem subject_backfill_amended_witness :
    (validate_task_info ⟨none, none, some (.list ["a@b.cd"]), none,
        some "Hello world", none, none, none, none⟩).subject =
      generate_subject "Hello world" ∧
    generate_subject "Hello world" = "Hello world" := by
  have h := subject_backfill_amended
    ⟨none, none, some (.list ["a@b.cd"]), none, some "Hello world", none,
      none, none, none⟩ rfl (by decide)
  exact ⟨h.1, by decide⟩

end AgentSpec
